import Mathlib

/-!
Shallow embedding of the NeoFS HTTP gateway's attribute-translation,
expiration-handling, multipart-upload and download code
(`uploader/filter.go`, the upload handler, `receive.go`, and the
multipart helper), together with theorems checking the specification's
claims about them.

Conventions used throughout:
* Go maps with `string` keys are embedded as function maps
  `String → Option String`; `m[k]` (value-or-zero form) is
  `(m k).getD ""` and the comma-ok form is a `match` on `m k`.
* Instants (`time.Time`) and durations (`time.Duration`) are embedded
  as `Int` nanosecond counts; `t.Before(u)` is `t < u` and `t.Sub(u)`
  is `t - u`.  `time.Unix(v, 0)` is the instant `v * 1000000000`.
* Go's `int64` / `uint64` arithmetic is embedded over `Int` / `Nat`;
  the quantities involved (epochs, block durations, millisecond
  counts) stay far below the overflow boundary on all paths the
  claims speak about, so no wrap-around modelling is needed.
* External library parsers (`time.Parse RFC3339`, `strconv.ParseInt`,
  `time.ParseDuration`) are not part of this repository; they enter
  the embedding as function parameters returning `Option Int`
  (`none` embeds a parse error).
* Results of remote calls (the storage pool, the bearer-token store)
  enter as `Except`/`Option`-valued inputs of the embedded handlers.
-/

namespace NeoFSGate

/-! ## String-keyed attribute maps (Go `map[string]string`) -/

/-- A Go `map[string]string`, embedded as a function map. -/
def Headers : Type := String → Option String

/-- The empty map. -/
def hempty : Headers := fun _ => none

/-- Go map assignment `m[k] = v`. -/
def hinsert (m : Headers) (k v : String) : Headers :=
  fun k' => if k' = k then some v else m k'

/-- Go `delete(m, k)`. -/
def herase (m : Headers) (k : String) : Headers :=
  fun k' => if k' = k then none else m k'

/-! ## Attribute-name constants (`uploader/filter.go`) -/

/-- Go constant `systemAttributePrefix = "__NEOFS__"` (String form). -/
def systemAttributePfx : String := "__NEOFS__"

/-- Go constant `expirationDurationAttr`. -/
def expirationDurationAttr : String := systemAttributePfx ++ "EXPIRATION_DURATION"

/-- Go constant `expirationTimestampAttr`. -/
def expirationTimestampAttr : String := systemAttributePfx ++ "EXPIRATION_TIMESTAMP"

/-- Go constant `expirationRFC3339Attr`. -/
def expirationRFC3339Attr : String := systemAttributePfx ++ "EXPIRATION_RFC3339"

/-- `object.SysAttributeExpEpoch` from the NeoFS API:
the network-native expiration-epoch attribute key. -/
def sysAttributeExpEpoch : String := systemAttributePfx ++ "EXPIRATION_EPOCH"

/-! ## Epoch durations (`uploader/filter.go`, `getEpochDurations`) -/

/-- Go struct `epochDurations{currentEpoch uint64; msPerBlock int64;
blockPerEpoch uint64}`. -/
structure epochDurations where
  currentEpoch : Nat
  msPerBlock : Int
  blockPerEpoch : Nat
deriving DecidableEq

/-- The result of `pool.NetworkInfo`: the three accessors the code reads. -/
structure NetworkInfoM where
  currentEpoch : Nat
  msPerBlock : Int
  epochDuration : Nat
deriving DecidableEq

/-- `getEpochDurations` from `uploader/filter.go`.  The remote
`p.NetworkInfo(ctx, ...)` call enters as the `networkInfo` input. -/
def getEpochDurations (networkInfo : Except String NetworkInfoM) :
    Except String epochDurations :=
  match networkInfo with
  | .error e => .error e
  | .ok ni =>
    let res : epochDurations :=
      { currentEpoch := ni.currentEpoch
        msPerBlock := ni.msPerBlock
        blockPerEpoch := ni.epochDuration }
    if res.blockPerEpoch = 0 then .error "EpochDuration is empty"
    else .ok res

/-! ## Expiration translation (`uploader/filter.go`) -/

/-- `updateExpirationHeader` from `uploader/filter.go`.
`expDuration` is a `time.Duration` in nanoseconds;
`expDuration.Milliseconds()` is Go `int64` division by `1e6`
(truncation), and `/` on `int64` is truncating division, both embedded
as `Int.tdiv`.  The stored value is `strconv.FormatInt(..., 10)`,
embedded as `toString` on `Int`. -/
def updateExpirationHeader (headers : Headers) (durations : epochDurations)
    (expDuration : Int) : Headers :=
  let epochDuration : Int := durations.msPerBlock * (durations.blockPerEpoch : Int)
  let numEpoch : Int := Int.tdiv (Int.tdiv expDuration 1000000) epochDuration
  hinsert headers sysAttributeExpEpoch (toString ((durations.currentEpoch : Int) + numEpoch))

/-- The three external parsers used by `prepareExpirationHeader`:
`time.Parse(time.RFC3339, ·)` (returning the parsed instant in
nanoseconds), `strconv.ParseInt(·, 10, 64)`, and
`time.ParseDuration(·)` (returning nanoseconds).  `none` embeds a
parse error. -/
structure Parsers where
  parseRFC3339 : String → Option Int
  parseInt64 : String → Option Int
  parseDuration : String → Option Int

/-- The RFC-3339 branch of `prepareExpirationHeader`
(`if timeRFC3339, ok := headers[expirationRFC3339Attr]; ok { ... }`).
`now` embeds `time.Now().UTC()`; `expTime.Before(now)` is strict `<`. -/
def rfcBranch (parse : String → Option Int) (now : Int)
    (epochDurs : epochDurations) (headers : Headers) : Except String Headers :=
  match headers expirationRFC3339Attr with
  | none => .ok headers
  | some timeRFC3339 =>
    match parse timeRFC3339 with
    | none =>
      .error ("couldn't parse value " ++ timeRFC3339 ++ " of header " ++ expirationRFC3339Attr)
    | some expTime =>
      if expTime < now then
        .error ("value " ++ timeRFC3339 ++ " of header " ++ expirationRFC3339Attr ++
          " must be in the future")
      else
        .ok (herase (updateExpirationHeader headers epochDurs (expTime - now))
          expirationRFC3339Attr)

/-- The Unix-timestamp branch of `prepareExpirationHeader`.
`time.Unix(value, 0)` is the instant `value * 1000000000`;
`expTime.Before(now)` is strict `<`. -/
def timestampBranch (parse : String → Option Int) (now : Int)
    (epochDurs : epochDurations) (headers : Headers) : Except String Headers :=
  match headers expirationTimestampAttr with
  | none => .ok headers
  | some timestamp =>
    match parse timestamp with
    | none =>
      .error ("couldn't parse value " ++ timestamp ++ " of header " ++ expirationTimestampAttr)
    | some value =>
      if value * 1000000000 < now then
        .error ("value " ++ timestamp ++ " of header " ++ expirationTimestampAttr ++
          " must be in the future")
      else
        .ok (herase (updateExpirationHeader headers epochDurs (value * 1000000000 - now))
          expirationTimestampAttr)

/-- The relative-duration branch of `prepareExpirationHeader`
(`if expDuration <= 0 { error }`). -/
def durationBranch (parse : String → Option Int)
    (epochDurs : epochDurations) (headers : Headers) : Except String Headers :=
  match headers expirationDurationAttr with
  | none => .ok headers
  | some duration =>
    match parse duration with
    | none =>
      .error ("couldn't parse value " ++ duration ++ " of header " ++ expirationDurationAttr)
    | some expDuration =>
      if expDuration ≤ 0 then
        .error ("value of header " ++ expirationDurationAttr ++ " must be positive")
      else
        .ok (herase (updateExpirationHeader headers epochDurs expDuration)
          expirationDurationAttr)

/-- `prepareExpirationHeader` from `uploader/filter.go`.  The source
reads `expirationInEpoch := headers[object.SysAttributeExpEpoch]`
(value-or-zero form) first, runs the three branches in order (each
mutating the map and deleting its own raw key), and finally restores
`headers[object.SysAttributeExpEpoch] = expirationInEpoch` when that
saved value was non-empty.  The two `time.Now()` calls of the source
are embedded as the single instant `now`. -/
def prepareExpirationHeader (P : Parsers) (now : Int) (headers : Headers)
    (epochDurs : epochDurations) : Except String Headers :=
  let expirationInEpoch := (headers sysAttributeExpEpoch).getD ""
  match rfcBranch P.parseRFC3339 now epochDurs headers with
  | .error e => .error e
  | .ok h1 =>
    match timestampBranch P.parseInt64 now epochDurs h1 with
    | .error e => .error e
    | .ok h2 =>
      match durationBranch P.parseDuration epochDurs h2 with
      | .error e => .error e
      | .ok h3 =>
        if expirationInEpoch ≠ "" then
          .ok (hinsert h3 sysAttributeExpEpoch expirationInEpoch)
        else
          .ok h3

/-- `needParseExpiration` from the upload handler: true when any of
the three raw expiration attributes is present. -/
def needParseExpiration (headers : Headers) : Bool :=
  (headers expirationDurationAttr).isSome ||
    (headers expirationRFC3339Attr).isSome ||
      (headers expirationTimestampAttr).isSome

/-- `true` exactly on `Except.error`; used to state that a call fails. -/
def exceptFailed {α : Type} : Except String α → Bool
  | .error _ => true
  | .ok _ => false

/-! ## Header filtering (`uploader/filter.go`, `filterHeaders` /
`systemTranslator`).  Header names and values are byte strings
(`[]byte` in the source, ASCII for HTTP header names); they are
embedded as `List Char`. -/

/-- A header/attribute byte string (`[]byte` in the source). -/
abbrev Str : Type := List Char

/-- An attribute map with byte-string keys (the `map[string]string`
built by `filterHeaders`). -/
def AttrMap : Type := Str → Option Str

/-- Go map assignment for `AttrMap`. -/
def minsert (m : AttrMap) (k v : Str) : AttrMap :=
  fun k' => if k' = k then some v else m k'

/-- Go constant `userAttributeHeaderPrefix = "X-Attribute-"`. -/
def userAttributeHeaderPfx : Str := "X-Attribute-".toList

/-- Go constant `systemAttributePrefix = "__NEOFS__"` (byte-string form). -/
def systemAttributePfxL : Str := "__NEOFS__".toList

/-- Go variable `neofsAttributeHeaderPrefixes =
[...][]byte{[]byte("Neofs-"), []byte("NEOFS-"), []byte("neofs-")}`. -/
def neofsAttributeHeaderPrefixes : List Str :=
  ["Neofs-".toList, "NEOFS-".toList, "neofs-".toList]

/-- `bytes.Replace(s, old, new, 1)`: replace the first occurrence of
`old` in `s` by `new`. -/
def replaceFirst (s old new : Str) : Str :=
  match s with
  | [] => if List.isPrefixOf old [] then new else []
  | c :: rest =>
    if List.isPrefixOf old (c :: rest) then new ++ (c :: rest).drop old.length
    else c :: replaceFirst rest old new

/-- `bytes.ReplaceAll(·, "-", "_")`, one byte at a time. -/
def dashToUnderscore (c : Char) : Char :=
  if c = '-' then '_' else c

/-- `systemTranslator` from `uploader/filter.go`: replace the matched
NeoFS sub-prefix with `__NEOFS__`, replace dashes with underscores,
then upper-case (header names are ASCII, so `bytes.ToUpper` is
per-character ASCII upper-casing, which is Lean's `Char.toUpper`). -/
def systemTranslator (key pref : Str) : Str :=
  let k1 := replaceFirst key pref systemAttributePfxL
  let k2 := k1.map dashToUnderscore
  k2.map Char.toUpper

/-- The attribute key derived from a header name that already passed
the `X-Attribute-` check: `bytes.TrimPrefix` (the `key.drop`), then
the loop over `neofsAttributeHeaderPrefixes` (the first matching
sub-prefix wins, then `break`; no match leaves the key unchanged). -/
def headerAttrKey (key : Str) : Str :=
  match neofsAttributeHeaderPrefixes.find?
      (fun system => List.isPrefixOf system (key.drop userAttributeHeaderPfx.length)) with
  | some system => systemTranslator (key.drop userAttributeHeaderPfx.length) system
  | none => key.drop userAttributeHeaderPfx.length

/-- The body of the `header.VisitAll` callback in `filterHeaders`:
processes one header `(key, val)` into the accumulated map.  Mirrors
the source's checks in order: non-empty key and value, the
`X-Attribute-` prefix, the key translation (`headerAttrKey`), the
non-empty-key re-check, then the map assignment. -/
def filterHeadersStep (result : AttrMap) (key val : Str) : AttrMap :=
  if key.length = 0 ∨ val.length = 0 then result
  else if ¬ (List.isPrefixOf userAttributeHeaderPfx key) then result
  else if (headerAttrKey key).length = 0 then result
  else minsert result (headerAttrKey key) val

/-- `filterHeaders` from `uploader/filter.go`: visit every request
header in order, accumulating the attribute map. -/
def filterHeaders (headerList : List (Str × Str)) : AttrMap :=
  headerList.foldl (fun result kv => filterHeadersStep result kv.1 kv.2) (fun _ => none)

/-! ## Multipart parsing (`fetchMultipartFile`) -/

/-- One multipart part, as seen through `part.FormName()` /
`part.FileName()` (the parsed `Content-Disposition` values). -/
structure Part where
  formName : String
  fileName : String
deriving DecidableEq

/-- `fetchMultipartFile`: pull parts off the lazy multipart reader in
order; skip a part whose form name is empty, skip a part whose file
name is empty, return the first part passing both checks.  The input
list is the sequence of parts the reader would yield; an exhausted
reader (`multipart.Reader.NextPart` returning `io.EOF`) is the empty
list.  On success the part is returned together with the parts after
it, which the function never consumed. -/
def fetchMultipartFile : List Part → Except String (Part × List Part)
  | [] => .error "EOF"
  | part :: rest =>
    if part.formName = "" then fetchMultipartFile rest
    else if part.fileName = "" then fetchMultipartFile rest
    else .ok (part, rest)

/-! ## Bearer-token handling (`fetchOwnerAndBearerToken`) -/

/-- A parsed bearer token; `issuer` embeds `tkn.ResolveIssuer()` and
owner identities are embedded as `Nat`. -/
structure BearerTokenM where
  issuer : Nat
deriving DecidableEq

/-- `fetchOwnerAndBearerToken` from the upload handler.  The
`tokens.LoadBearerToken(ctx)` call enters as its result pair
`(tkn, loadErr)`; the source's guard is
`if tkn, err := ...; err == nil && tkn != nil`. -/
def fetchOwnerAndBearerToken (ownerID : Nat) (tkn : Option BearerTokenM)
    (loadErr : Option String) : Nat × Option BearerTokenM :=
  match loadErr, tkn with
  | none, some t => (t.issuer, some t)
  | _, _ => (ownerID, none)

/-! ## Download handlers (`receive.go`) -/

/-- A stored object as the download path sees it: its payload arrives
as a sequence of chunks written through the response writer. -/
structure ObjM where
  chunks : List (List Nat)
deriving DecidableEq

/-- A failed `obj.Get`: `notFound` records whether the gRPC status
code was `codes.NotFound` (mapped to HTTP 404, anything else to 400). -/
structure GetErrM where
  notFound : Bool
deriving DecidableEq

/-- The environment of one download request: the outcome of container
parsing, of the search call, of the bearer-token store, the object
store (`obj.Get` keyed by container and object id), and the
content-type sniffer `http.DetectContentType`. -/
structure DownloadEnv where
  parseContainerID : Except String Nat
  searchIDs : Except String (List Nat)
  storeBearerToken : Except String Unit
  getObject : Nat → Nat → Except GetErrM ObjM
  detect : List Nat → String

/-- The observable outcome of a download request: HTTP status, body
bytes written, sniffed content type, and which object (if any) was
requested from the storage network. -/
structure DownloadResult where
  status : Nat
  body : List Nat
  contentType : Option String
  fetched : Option (Nat × Nat)
deriving DecidableEq

/-- The `detector` writer from `receive.go`: on the first `Write` it
sniffs the content type (`sync.Once`), and every `Write` passes the
bytes through unchanged.  Returns the final content type and the
bytes written downstream. -/
def detectorFold (detect : List Nat → String) (chunks : List (List Nat)) :
    Option String × List Nat :=
  chunks.foldl (fun acc data => (some ((acc.1).getD (detect data)), acc.2 ++ data)) (none, [])

/-- `receiveFile` from `receive.go`, for the address `(cid, oidV)`:
store the bearer token (400 on failure), run `obj.Get` streaming
through the detector (404/400 on failure per gRPC code), and on
success the response body is exactly the bytes the object's payload
chunks carried.  Response headers other than the content type are not
modelled; partial bytes written before a mid-stream `Get` failure are
not modelled (no claim concerns them). -/
def receiveFile (e : DownloadEnv) (cid oidV : Nat) : DownloadResult :=
  match e.storeBearerToken with
  | .error _ => { status := 400, body := [], contentType := none, fetched := none }
  | .ok _ =>
    match e.getObject cid oidV with
    | .error ge =>
      { status := if ge.notFound then 404 else 400
        body := [], contentType := none, fetched := some (cid, oidV) }
    | .ok obj =>
      let d := detectorFold e.detect obj.chunks
      { status := 200, body := d.2, contentType := d.1, fetched := some (cid, oidV) }

/-- `byAttribute` from `receive.go`: parse the container id (400 on
failure), run the attribute search (400 on failure), answer 404 on an
empty result list, otherwise fetch `ids[0]` (the source logs when
`len(ids) > 1` and proceeds with the first id). -/
def byAttribute (e : DownloadEnv) : DownloadResult :=
  match e.parseContainerID with
  | .error _ => { status := 400, body := [], contentType := none, fetched := none }
  | .ok cid =>
    match e.searchIDs with
    | .error _ => { status := 400, body := [], contentType := none, fetched := none }
    | .ok ids =>
      match ids with
      | [] => { status := 404, body := [], contentType := none, fetched := none }
      | first :: _ => receiveFile e cid first

/-! ## The upload handler (`Upload`) -/

/-- The environment of one upload request: the outcomes of every
fallible step of `Upload`, in source order, plus the request body
stream.  `bodyLen` is the total number of body bytes the stream
holds; `consumedByParse` is how many of them the multipart reader
consumed before returning (success or failure); `consumedByCopy` is
how many more the `io.CopyBuffer` of the located part consumed.
`clientDate` is the parsed `Date` request header when present and
parseable, `serverNow` the gateway's `time.Now()`. -/
structure UploadEnv where
  storeBearerToken : Except String Unit
  getContainerID : Except String Nat
  bodyLen : Nat
  consumedByParse : Nat
  fetchMultipartFile : Except String Unit
  filterHeaders : Except String Headers
  getEpochDurations : Except String epochDurations
  clientDate : Option Int
  serverNow : Int
  parsers : Parsers
  putInit : Except String Unit
  consumedByCopy : Nat
  copyBody : Except String Unit
  closeWriter : Except String Unit
  encodeResp : Except String Unit

/-- The observable outcome of `Upload`: the HTTP status code and how
many bytes of the request body stream were still unread when the
handler returned. -/
structure UploadResult where
  status : Nat
  unreadBody : Nat
deriving DecidableEq

/-- The `Upload` handler from the uploader package, as a control-flow
skeleton over its fallible steps.  Every early `return` of the source
is a branch here, carrying the HTTP status the source sets and the
unread remainder of the body stream at that point.  The final drain
loop (`for { bodyStream.Read(drainBuf); ... break on EOF }`) appears
only after a successful response encode, exactly as in the source,
and leaves zero unread bytes. -/
def Upload (e : UploadEnv) : UploadResult :=
  match e.storeBearerToken with
  | .error _ => { status := 400, unreadBody := e.bodyLen }
  | .ok _ =>
  match e.getContainerID with
  | .error _ => { status := 400, unreadBody := e.bodyLen }
  | .ok _ =>
  match e.fetchMultipartFile with
  | .error _ => { status := 400, unreadBody := e.bodyLen - e.consumedByParse }
  | .ok _ =>
  match e.filterHeaders with
  | .error _ => { status := 400, unreadBody := e.bodyLen - e.consumedByParse }
  | .ok filtered =>
  let expirationStep : Except String Headers :=
    if needParseExpiration filtered then
      match e.getEpochDurations with
      | .error msg => .error msg
      | .ok epochDuration =>
        let now := e.clientDate.getD e.serverNow
        prepareExpirationHeader e.parsers now filtered epochDuration
    else .ok filtered
  match expirationStep with
  | .error _ => { status := 400, unreadBody := e.bodyLen - e.consumedByParse }
  | .ok _ =>
  match e.putInit with
  | .error _ => { status := 500, unreadBody := e.bodyLen - e.consumedByParse }
  | .ok _ =>
  match e.copyBody with
  | .error _ => { status := 500, unreadBody := e.bodyLen - e.consumedByParse - e.consumedByCopy }
  | .ok _ =>
  match e.closeWriter with
  | .error _ => { status := 500, unreadBody := e.bodyLen - e.consumedByParse - e.consumedByCopy }
  | .ok _ =>
  match e.encodeResp with
  | .error _ => { status := 400, unreadBody := e.bodyLen - e.consumedByParse - e.consumedByCopy }
  | .ok _ => { status := 200, unreadBody := 0 }

/-! ## Decidability and unwrapping helpers -/

instance {ε α : Type} [DecidableEq ε] [DecidableEq α] : DecidableEq (Except ε α) := fun x y =>
  match x, y with
  | .error a, .error b =>
    if h : a = b then .isTrue (congrArg Except.error h)
    else .isFalse (fun c => h (Except.error.inj c))
  | .error _, .ok _ => .isFalse (fun c => Except.noConfusion c)
  | .ok _, .error _ => .isFalse (fun c => Except.noConfusion c)
  | .ok a, .ok b =>
    if h : a = b then .isTrue (congrArg Except.ok h)
    else .isFalse (fun c => h (Except.ok.inj c))

/-- Extract the map from a successful `prepareExpirationHeader` call
(used to instantiate theorems at concrete inputs). -/
def exceptUnwrap : Except String Headers → Headers
  | .ok h => h
  | .error _ => hempty

/-! ## Concrete inputs used by witnesses and counterexamples -/

/-- Sample network timing: current epoch 10, 1000 ms per block,
100 blocks per epoch (one epoch = 100 000 ms). -/
def edEx : epochDurations := ⟨10, 1000, 100⟩

/-- Parsers for the boundary case: the single string "T" parses (as
RFC 3339) to the instant 1000 ns. -/
def c2Parsers : Parsers :=
  ⟨fun s => if s = "T" then some 1000 else none, fun _ => none, fun _ => none⟩

/-- A header map carrying only the raw RFC-3339 expiration header "T". -/
def c2Headers : Headers :=
  fun k => if k = expirationRFC3339Attr then some "T" else none

/-- Parsers mapping "P" (RFC 3339) to the instant 5 ns. -/
def c2wParsers : Parsers :=
  ⟨fun s => if s = "P" then some 5 else none, fun _ => none, fun _ => none⟩

/-- A header map carrying only the raw RFC-3339 expiration header "P". -/
def c2wHeaders : Headers :=
  fun k => if k = expirationRFC3339Attr then some "P" else none

/-- Parsers mapping "D" (duration) to 5 s = 5 000 000 000 ns. -/
def c5Parsers : Parsers :=
  ⟨fun _ => none, fun _ => none, fun s => if s = "D" then some 5000000000 else none⟩

/-- A header map holding the expiration-epoch attribute with an empty
value together with a raw duration header "D". -/
def c5Headers : Headers :=
  fun k => if k = sysAttributeExpEpoch then some "" else
    if k = expirationDurationAttr then some "D" else none

/-- A header map holding the expiration-epoch attribute with value
"42" together with a raw duration header "D". -/
def c5wHeaders : Headers :=
  fun k => if k = sysAttributeExpEpoch then some "42" else
    if k = expirationDurationAttr then some "D" else none

/-- An upload environment whose multipart parse fails with 10 body
bytes pending, every step before it succeeding. -/
def c3Env : UploadEnv :=
  { storeBearerToken := .ok (), getContainerID := .ok 1, bodyLen := 10,
    consumedByParse := 0, fetchMultipartFile := .error "boom",
    filterHeaders := .ok hempty, getEpochDurations := .error "unused",
    clientDate := none, serverNow := 0,
    parsers := ⟨fun _ => none, fun _ => none, fun _ => none⟩,
    putInit := .ok (), consumedByCopy := 0, copyBody := .ok (),
    closeWriter := .ok (), encodeResp := .ok () }

/-- An upload environment in which every step succeeds. -/
def c3wEnv : UploadEnv :=
  { storeBearerToken := .ok (), getContainerID := .ok 1, bodyLen := 10,
    consumedByParse := 4, fetchMultipartFile := .ok (),
    filterHeaders := .ok hempty, getEpochDurations := .error "unused",
    clientDate := none, serverNow := 0,
    parsers := ⟨fun _ => none, fun _ => none, fun _ => none⟩,
    putInit := .ok (), consumedByCopy := 6, copyBody := .ok (),
    closeWriter := .ok (), encodeResp := .ok () }

/-- A download environment: container 7 parses, the search finds the
single object 3, and object (7, 3) holds payload chunks [1,2] and [3]. -/
def c6Env : DownloadEnv :=
  { parseContainerID := .ok 7, searchIDs := .ok [3],
    storeBearerToken := .ok (),
    getObject := fun cid oidV =>
      if cid = 7 ∧ oidV = 3 then .ok ⟨[[1, 2], [3]]⟩ else .error ⟨true⟩,
    detect := fun _ => "application/octet-stream" }

/-! ## Auxiliary lemmas -/

theorem isPrefixOf_append_self (a b : Str) : List.isPrefixOf a (a ++ b) = true := by
  induction a with
  | nil => simp [List.isPrefixOf]
  | cons c t ih => simp [List.isPrefixOf, ih]

theorem rfcBranch_ok_none {p : String → Option Int} {now : Int} {ed : epochDurations}
    {h h' : Headers} (hok : rfcBranch p now ed h = .ok h') :
    h' expirationRFC3339Attr = none := by
  cases hk : h expirationRFC3339Attr with
  | none =>
    simp [rfcBranch, hk] at hok
    rw [← hok]
    exact hk
  | some s =>
    cases hp : p s with
    | none => simp [rfcBranch, hk, hp] at hok
    | some t =>
      by_cases hlt : t < now
      · simp [rfcBranch, hk, hp, hlt] at hok
      · simp [rfcBranch, hk, hp, hlt] at hok
        rw [← hok]
        simp [herase]

theorem rfcBranch_ok_pres {p : String → Option Int} {now : Int} {ed : epochDurations}
    {h h' : Headers} (hok : rfcBranch p now ed h = .ok h') (k : String)
    (hk1 : k ≠ expirationRFC3339Attr) (hk2 : k ≠ sysAttributeExpEpoch) :
    h' k = h k := by
  cases hk : h expirationRFC3339Attr with
  | none =>
    simp [rfcBranch, hk] at hok
    rw [← hok]
  | some s =>
    cases hp : p s with
    | none => simp [rfcBranch, hk, hp] at hok
    | some t =>
      by_cases hlt : t < now
      · simp [rfcBranch, hk, hp, hlt] at hok
      · simp [rfcBranch, hk, hp, hlt] at hok
        rw [← hok]
        simp [herase, updateExpirationHeader, hinsert, hk1, hk2]

theorem timestampBranch_ok_none {p : String → Option Int} {now : Int} {ed : epochDurations}
    {h h' : Headers} (hok : timestampBranch p now ed h = .ok h') :
    h' expirationTimestampAttr = none := by
  cases hk : h expirationTimestampAttr with
  | none =>
    simp [timestampBranch, hk] at hok
    rw [← hok]
    exact hk
  | some s =>
    cases hp : p s with
    | none => simp [timestampBranch, hk, hp] at hok
    | some t =>
      by_cases hlt : t * 1000000000 < now
      · simp [timestampBranch, hk, hp, hlt] at hok
      · simp [timestampBranch, hk, hp, hlt] at hok
        rw [← hok]
        simp [herase]

theorem timestampBranch_ok_pres {p : String → Option Int} {now : Int} {ed : epochDurations}
    {h h' : Headers} (hok : timestampBranch p now ed h = .ok h') (k : String)
    (hk1 : k ≠ expirationTimestampAttr) (hk2 : k ≠ sysAttributeExpEpoch) :
    h' k = h k := by
  cases hk : h expirationTimestampAttr with
  | none =>
    simp [timestampBranch, hk] at hok
    rw [← hok]
  | some s =>
    cases hp : p s with
    | none => simp [timestampBranch, hk, hp] at hok
    | some t =>
      by_cases hlt : t * 1000000000 < now
      · simp [timestampBranch, hk, hp, hlt] at hok
      · simp [timestampBranch, hk, hp, hlt] at hok
        rw [← hok]
        simp [herase, updateExpirationHeader, hinsert, hk1, hk2]

theorem durationBranch_ok_none {p : String → Option Int} {ed : epochDurations}
    {h h' : Headers} (hok : durationBranch p ed h = .ok h') :
    h' expirationDurationAttr = none := by
  cases hk : h expirationDurationAttr with
  | none =>
    simp [durationBranch, hk] at hok
    rw [← hok]
    exact hk
  | some s =>
    cases hp : p s with
    | none => simp [durationBranch, hk, hp] at hok
    | some t =>
      by_cases hle : t ≤ 0
      · simp [durationBranch, hk, hp, hle] at hok
      · simp [durationBranch, hk, hp, hle] at hok
        rw [← hok]
        simp [herase]

theorem durationBranch_ok_pres {p : String → Option Int} {ed : epochDurations}
    {h h' : Headers} (hok : durationBranch p ed h = .ok h') (k : String)
    (hk1 : k ≠ expirationDurationAttr) (hk2 : k ≠ sysAttributeExpEpoch) :
    h' k = h k := by
  cases hk : h expirationDurationAttr with
  | none =>
    simp [durationBranch, hk] at hok
    rw [← hok]
  | some s =>
    cases hp : p s with
    | none => simp [durationBranch, hk, hp] at hok
    | some t =>
      by_cases hle : t ≤ 0
      · simp [durationBranch, hk, hp, hle] at hok
      · simp [durationBranch, hk, hp, hle] at hok
        rw [← hok]
        simp [herase, updateExpirationHeader, hinsert, hk1, hk2]

/-! ## Claim C1 -/

/-- C1: for every expiration header translated on upload (a
non-negative duration until the target, with positive network timing
parameters), the stored expiration-epoch attribute equals
`currentEpoch + floor(durationMilliseconds / (msPerBlock * blocksPerEpoch))`,
where the millisecond count is itself the floor of the nanosecond
duration over 10^6; in particular with `currentEpoch = 10`,
`msPerBlock = 1000`, `blocksPerEpoch = 100` and a duration of 150 s
the attribute value is "11" (see the witness). -/
theorem claim_C1 (headers : Headers) (ed : epochDurations) (d : Int)
    (hd : 0 ≤ d) (hm : 0 < ed.msPerBlock) (hb : 0 < ed.blockPerEpoch) :
    updateExpirationHeader headers ed d sysAttributeExpEpoch
      = some (toString ((ed.currentEpoch : Int) +
          Int.fdiv (Int.fdiv d 1000000) (ed.msPerBlock * (ed.blockPerEpoch : Int)))) := by
  have hbz : (0 : Int) < (ed.blockPerEpoch : Int) := by exact_mod_cast hb
  have hM : (0 : Int) < ed.msPerBlock * (ed.blockPerEpoch : Int) := mul_pos hm hbz
  have h1 : Int.tdiv d 1000000 = d / 1000000 := Int.tdiv_eq_ediv hd (by norm_num)
  have h1f : Int.fdiv d 1000000 = d / 1000000 := Int.fdiv_eq_ediv d (by norm_num)
  have h2 : (0 : Int) ≤ d / 1000000 := Int.ediv_nonneg hd (by norm_num)
  have h3 : Int.tdiv (d / 1000000) (ed.msPerBlock * (ed.blockPerEpoch : Int))
      = (d / 1000000) / (ed.msPerBlock * (ed.blockPerEpoch : Int)) :=
    Int.tdiv_eq_ediv h2 (le_of_lt hM)
  have h3f : Int.fdiv (d / 1000000) (ed.msPerBlock * (ed.blockPerEpoch : Int))
      = (d / 1000000) / (ed.msPerBlock * (ed.blockPerEpoch : Int)) :=
    Int.fdiv_eq_ediv _ (le_of_lt hM)
  simp [updateExpirationHeader, hinsert, h1, h1f, h3, h3f]

/-- Witness for C1: the spec's concrete example.  `currentEpoch = 10`,
`msPerBlock = 1000`, `blocksPerEpoch = 100`, duration 150 s
(150 000 000 000 ns): the stored attribute is "11". -/
theorem claim_C1_witness :
    updateExpirationHeader hempty edEx 150000000000 sysAttributeExpEpoch = some "11" := by
  rw [claim_C1 hempty edEx 150000000000 (by decide) (by decide) (by decide)]
  decide

/-! ## Claim C10 -/

/-- C10: `getEpochDurations` never returns a successful result whose
blocks-per-epoch field is zero; when the network reports an epoch
duration of zero blocks it returns an error, so the blocks-per-epoch
factor of the expiration divisor is strictly positive on every
successful path. -/
theorem claim_C10 (networkInfo : Except String NetworkInfoM) (res : epochDurations)
    (hok : getEpochDurations networkInfo = .ok res) : 0 < res.blockPerEpoch := by
  cases networkInfo with
  | error e => simp [getEpochDurations] at hok
  | ok ni =>
    by_cases hz : ni.epochDuration = 0
    · simp [getEpochDurations, hz] at hok
    · simp [getEpochDurations, hz] at hok
      rw [← hok]
      exact Nat.pos_of_ne_zero hz

/-- Witness for C10: a network info with epoch duration 100 blocks
yields a successful result with a positive blocks-per-epoch field. -/
theorem claim_C10_witness :
    0 < (epochDurations.mk 5 1000 100).blockPerEpoch :=
  claim_C10 (.ok ⟨5, 1000, 100⟩) ⟨5, 1000, 100⟩ (by decide)

/-! ## Claim C2 (amended) -/

/-- C2 as amended: `prepareExpirationHeader` rejects an RFC-3339 or
Unix-timestamp expiration header whose target instant is strictly in
the past, and a relative-duration header that is zero or negative
(target at or before now); a target instant exactly equal to the
current time is accepted for the RFC-3339 and Unix-timestamp forms
(the source checks `expTime.Before(now)`, which is strict), as the
counterexample shows. -/
theorem claim_C2 (P : Parsers) (now : Int) (headers : Headers) (ed : epochDurations) :
    (∀ s t, headers expirationRFC3339Attr = some s → P.parseRFC3339 s = some t →
      t < now → exceptFailed (prepareExpirationHeader P now headers ed) = true) ∧
    (∀ s t, headers expirationTimestampAttr = some s → P.parseInt64 s = some t →
      t * 1000000000 < now →
      exceptFailed (prepareExpirationHeader P now headers ed) = true) ∧
    (∀ s t, headers expirationDurationAttr = some s → P.parseDuration s = some t →
      t ≤ 0 → exceptFailed (prepareExpirationHeader P now headers ed) = true) := by
  refine ⟨?_, ?_, ?_⟩
  · intro s t hs hp hlt
    simp [prepareExpirationHeader, rfcBranch, hs, hp, hlt, exceptFailed]
  · intro s t hs hp hlt
    cases h1e : rfcBranch P.parseRFC3339 now ed headers with
    | error e => simp [prepareExpirationHeader, h1e, exceptFailed]
    | ok h1 =>
      have hpres : h1 expirationTimestampAttr = headers expirationTimestampAttr :=
        rfcBranch_ok_pres h1e _ (by decide) (by decide)
      simp [prepareExpirationHeader, h1e, timestampBranch, hpres, hs, hp, hlt, exceptFailed]
  · intro s t hs hp hle
    cases h1e : rfcBranch P.parseRFC3339 now ed headers with
    | error e => simp [prepareExpirationHeader, h1e, exceptFailed]
    | ok h1 =>
      cases h2e : timestampBranch P.parseInt64 now ed h1 with
      | error e => simp [prepareExpirationHeader, h1e, h2e, exceptFailed]
      | ok h2 =>
        have hp1 : h1 expirationDurationAttr = headers expirationDurationAttr :=
          rfcBranch_ok_pres h1e _ (by decide) (by decide)
        have hp2 : h2 expirationDurationAttr = h1 expirationDurationAttr :=
          timestampBranch_ok_pres h2e _ (by decide) (by decide)
        simp [prepareExpirationHeader, h1e, h2e, durationBranch, hp2, hp1, hs, hp, hle,
          exceptFailed]

/-- Counterexample to C2 as stated: an RFC-3339 expiration header
whose parsed target instant (1000 ns) is exactly equal to the current
time (1000 ns) — not strictly in the future — is accepted:
`prepareExpirationHeader` returns success instead of an error. -/
theorem claim_C2_counterexample :
    c2Headers expirationRFC3339Attr = some "T" ∧
    c2Parsers.parseRFC3339 "T" = some 1000 ∧
    ¬ ((1000 : Int) < 1000) ∧
    exceptFailed (prepareExpirationHeader c2Parsers 1000 c2Headers edEx) = false :=
  ⟨by decide, by decide, by decide, by decide⟩

/-- Witness for C2 (amended): an RFC-3339 target of 5 ns with the
current time at 10 ns is strictly in the past and is rejected. -/
theorem claim_C2_witness :
    exceptFailed (prepareExpirationHeader c2wParsers 10 c2wHeaders edEx) = true :=
  (claim_C2 c2wParsers 10 c2wHeaders edEx).1 "P" 5 (by decide) (by decide) (by decide)

/-! ## Claim C5 (amended) -/

/-- C5 as amended: whenever `prepareExpirationHeader` returns
successfully, none of the three raw derived-expiration attribute keys
(RFC-3339, Unix timestamp, duration) remain in the map, and if the
network-native expiration-epoch attribute was present on entry with a
non-empty value then it is present on exit with its original value
unchanged.  (An entry with the empty value is indistinguishable from
an absent key to the source's final value-or-zero read and is not
restored, as the counterexample shows.) -/
theorem claim_C5 (P : Parsers) (now : Int) (headers : Headers) (ed : epochDurations)
    (out : Headers) (hok : prepareExpirationHeader P now headers ed = .ok out) :
    out expirationRFC3339Attr = none ∧ out expirationTimestampAttr = none ∧
      out expirationDurationAttr = none ∧
      (∀ v, headers sysAttributeExpEpoch = some v → v ≠ "" →
        out sysAttributeExpEpoch = some v) := by
  cases h1e : rfcBranch P.parseRFC3339 now ed headers with
  | error e => simp [prepareExpirationHeader, h1e] at hok
  | ok h1 =>
    cases h2e : timestampBranch P.parseInt64 now ed h1 with
    | error e => simp [prepareExpirationHeader, h1e, h2e] at hok
    | ok h2 =>
      cases h3e : durationBranch P.parseDuration ed h2 with
      | error e => simp [prepareExpirationHeader, h1e, h2e, h3e] at hok
      | ok h3 =>
        have hr1 : h1 expirationRFC3339Attr = none := rfcBranch_ok_none h1e
        have hr2 : h2 expirationRFC3339Attr = h1 expirationRFC3339Attr :=
          timestampBranch_ok_pres h2e _ (by decide) (by decide)
        have hr3 : h3 expirationRFC3339Attr = h2 expirationRFC3339Attr :=
          durationBranch_ok_pres h3e _ (by decide) (by decide)
        have ht2 : h2 expirationTimestampAttr = none := timestampBranch_ok_none h2e
        have ht3 : h3 expirationTimestampAttr = h2 expirationTimestampAttr :=
          durationBranch_ok_pres h3e _ (by decide) (by decide)
        have hd3 : h3 expirationDurationAttr = none := durationBranch_ok_none h3e
        by_cases hc : ((headers sysAttributeExpEpoch).getD "" ≠ "")
        · simp [prepareExpirationHeader, h1e, h2e, h3e, hc] at hok
          refine ⟨?_, ?_, ?_, ?_⟩
          · rw [← hok]
            simp [hinsert, show expirationRFC3339Attr ≠ sysAttributeExpEpoch from by decide]
            rw [hr3, hr2]
            exact hr1
          · rw [← hok]
            simp [hinsert, show expirationTimestampAttr ≠ sysAttributeExpEpoch from by decide]
            rw [ht3]
            exact ht2
          · rw [← hok]
            simp [hinsert, show expirationDurationAttr ≠ sysAttributeExpEpoch from by decide]
            exact hd3
          · intro v hv hvne
            rw [← hok]
            simp [hinsert, hv]
        · simp [prepareExpirationHeader, h1e, h2e, h3e, hc] at hok
          refine ⟨?_, ?_, ?_, ?_⟩
          · rw [← hok, hr3, hr2]
            exact hr1
          · rw [← hok, ht3]
            exact ht2
          · rw [← hok]
            exact hd3
          · intro v hv hvne
            exact absurd (by rw [hv]; exact hvne) hc

/-- Counterexample to C5 as stated: a map holding the
expiration-epoch attribute with the empty value (present on entry)
together with a raw duration header.  The call succeeds, yet on exit
the attribute holds the derived value "10", not its original value "". -/
theorem claim_C5_counterexample :
    c5Headers sysAttributeExpEpoch = some "" ∧
    (prepareExpirationHeader c5Parsers 0 c5Headers edEx).toOption.map
      (fun m => m sysAttributeExpEpoch) = some (some "10") ∧
    ("10" : String) ≠ "" :=
  ⟨by decide, by decide, by decide⟩

/-- Witness for C5 (amended): with the expiration-epoch attribute
supplied as "42" alongside a raw duration header, the successful call
leaves the attribute at "42". -/
theorem claim_C5_witness :
    exceptUnwrap (prepareExpirationHeader c5Parsers 0 c5wHeaders edEx) sysAttributeExpEpoch
      = some "42" :=
  (claim_C5 c5Parsers 0 c5wHeaders edEx _ (by rfl)).2.2.2 "42" (by decide) (by decide)

/-! ## Claim C3 (amended) -/

/-- C3 as amended: the upload handler drains the remaining body bytes
to exhaustion only on the fully successful path (the one that reports
status 200, after the response is encoded); when the multipart parse
fails (the bearer-token and container steps before it having
succeeded), the handler returns status 400 with the unread remainder
of the body still pending — the drain loop of the source sits after
the final successful encode and is not reached by any early return. -/
theorem claim_C3 (e : UploadEnv) :
    ((Upload e).status = 200 → (Upload e).unreadBody = 0) ∧
    (exceptFailed e.storeBearerToken = false → exceptFailed e.getContainerID = false →
      exceptFailed e.fetchMultipartFile = true →
      Upload e = { status := 400, unreadBody := e.bodyLen - e.consumedByParse }) := by
  constructor
  · intro h
    unfold Upload at h ⊢
    repeat' split at h
    all_goals
      first
      | (simp_all; done)
      | (generalize hq : prepareExpirationHeader _ _ _ _ = r at h ⊢
         cases r <;> simp_all)
  · intro h1 h2 h3
    cases hb : e.storeBearerToken with
    | error msg => rw [hb] at h1; simp [exceptFailed] at h1
    | ok u =>
      cases hcnt : e.getContainerID with
      | error msg => rw [hcnt] at h2; simp [exceptFailed] at h2
      | ok c =>
        cases hf : e.fetchMultipartFile with
        | error msg => simp [Upload, hb, hcnt, hf]
        | ok u2 => rw [hf] at h3; simp [exceptFailed] at h3

/-- Counterexample to C3 as stated: an upload request whose multipart
parse fails with 10 body bytes still unread returns without draining
them — the unread remainder is 10, not 0. -/
theorem claim_C3_counterexample :
    c3Env.fetchMultipartFile = .error "boom" ∧
    (Upload c3Env).unreadBody = 10 ∧ (Upload c3Env).unreadBody ≠ 0 :=
  ⟨by decide, by decide, by decide⟩

/-- Witness for C3 (amended): on a fully successful upload the body
is drained to exhaustion (zero unread bytes). -/
theorem claim_C3_witness : (Upload c3wEnv).unreadBody = 0 :=
  (claim_C3 c3wEnv).1 (by decide)

/-! ## Claim C6 -/

theorem detectorFold_snd (f : List Nat → String) (chunks : List (List Nat)) :
    (detectorFold f chunks).2 = chunks.flatten := by
  suffices h : ∀ (ct : Option String) (acc : List Nat),
      (chunks.foldl (fun acc2 data => (some ((acc2.1).getD (f data)), acc2.2 ++ data))
        (ct, acc)).2 = acc ++ chunks.flatten by
    simpa [detectorFold] using h none []
  induction chunks with
  | nil => intro ct acc; simp
  | cons c rest ih => intro ct acc; simp [List.foldl, ih, List.append_assoc]

/-- C6: a get-by-attribute request whose search returns an empty
result list answers 404 without requesting any object from the
storage network; a non-empty result list makes the handler fetch
exactly the first object in the order the search returned (once the
bearer-token step inside the receive path succeeds), and when that
fetch succeeds the response body is the object's payload unchanged. -/
theorem claim_C6 (e : DownloadEnv) (cid : Nat) (hc : e.parseContainerID = .ok cid) :
    (e.searchIDs = .ok [] →
      byAttribute e = { status := 404, body := [], contentType := none, fetched := none }) ∧
    (∀ first rest, e.searchIDs = .ok (first :: rest) → e.storeBearerToken = .ok () →
      (byAttribute e).fetched = some (cid, first) ∧
      (∀ obj, e.getObject cid first = .ok obj → (byAttribute e).body = obj.chunks.flatten)) := by
  constructor
  · intro hs
    simp [byAttribute, hc, hs]
  · intro first rest hs hb
    constructor
    · cases hg : e.getObject cid first with
      | error ge => simp [byAttribute, hc, hs, receiveFile, hb, hg]
      | ok obj => simp [byAttribute, hc, hs, receiveFile, hb, hg]
    · intro obj hg
      simp [byAttribute, hc, hs, receiveFile, hb, hg]
      exact detectorFold_snd e.detect obj.chunks

/-- Witness for C6: with one search hit (object 3 in container 7)
holding payload chunks [1,2] and [3], the handler fetches (7, 3) and
the body is the concatenated payload [1, 2, 3]. -/
theorem claim_C6_witness :
    (byAttribute c6Env).fetched = some (7, 3) ∧ (byAttribute c6Env).body = [1, 2, 3] := by
  have h := (claim_C6 c6Env 7 (by decide)).2 3 [] (by decide) (by decide)
  refine ⟨h.1, ?_⟩
  have hb := h.2 ⟨[[1, 2], [3]]⟩ (by decide)
  simpa using hb

/-! ## Claim C7 -/

/-- C7: `fetchMultipartFile` returns the first part having both a
non-empty form name and a non-empty file name; every earlier part
lacks one of the two, and the parts after the returned one are
handed back unconsumed; when no part qualifies the reader is
exhausted and an error (`io.EOF`) is returned. -/
theorem claim_C7 (parts : List Part) :
    (∀ p rest, fetchMultipartFile parts = .ok (p, rest) →
      ∃ pre, parts = pre ++ p :: rest ∧
        (∀ q ∈ pre, q.formName = "" ∨ q.fileName = "") ∧
        p.formName ≠ "" ∧ p.fileName ≠ "") ∧
    ((∀ q ∈ parts, q.formName = "" ∨ q.fileName = "") →
      fetchMultipartFile parts = .error "EOF") := by
  induction parts with
  | nil =>
    constructor
    · intro p rest h
      simp [fetchMultipartFile] at h
    · intro _
      rfl
  | cons a t ih =>
    constructor
    · intro p rest h
      by_cases hf : a.formName = ""
      · rw [show fetchMultipartFile (a :: t) = fetchMultipartFile t from by
          simp [fetchMultipartFile, hf]] at h
        obtain ⟨pre, hpre, hall, hp1, hp2⟩ := ih.1 p rest h
        refine ⟨a :: pre, by simp [hpre], ?_, hp1, hp2⟩
        intro q hq
        rcases List.mem_cons.mp hq with hq | hq
        · exact Or.inl (hq ▸ hf)
        · exact hall q hq
      · by_cases hg : a.fileName = ""
        · rw [show fetchMultipartFile (a :: t) = fetchMultipartFile t from by
            simp [fetchMultipartFile, hf, hg]] at h
          obtain ⟨pre, hpre, hall, hp1, hp2⟩ := ih.1 p rest h
          refine ⟨a :: pre, by simp [hpre], ?_, hp1, hp2⟩
          intro q hq
          rcases List.mem_cons.mp hq with hq | hq
          · exact Or.inr (hq ▸ hg)
          · exact hall q hq
        · simp [fetchMultipartFile, hf, hg] at h
          obtain ⟨rfl, rfl⟩ := h
          exact ⟨[], by simp, by simp, hf, hg⟩
    · intro hall
      rcases hall a (by simp) with h1 | h2
      · simp only [fetchMultipartFile, h1, if_pos rfl]
        exact ih.2 (fun q hq => hall q (List.mem_cons_of_mem a hq))
      · by_cases hf : a.formName = ""
        · simp only [fetchMultipartFile, if_pos hf]
          exact ih.2 (fun q hq => hall q (List.mem_cons_of_mem a hq))
        · simp only [fetchMultipartFile, if_neg hf, if_pos h2]
          exact ih.2 (fun q hq => hall q (List.mem_cons_of_mem a hq))

/-- Witness for C7: a reader yielding only parts lacking a form name
or a file name is exhausted and `io.EOF` is surfaced. -/
theorem claim_C7_witness :
    fetchMultipartFile [⟨"", "x"⟩, ⟨"f", ""⟩] = .error "EOF" :=
  (claim_C7 [⟨"", "x"⟩, ⟨"f", ""⟩]).2 (by decide)

/-! ## Claim C8 -/

/-- C8: when a valid bearer token is stored in the request context
(the load call returns a token and no error), the upload handler uses
the token's issuer as the owning identity and attaches that token;
when no token is present or loading fails, it uses the gateway's own
configured owner identity and attaches no token. -/
theorem claim_C8 (ownerID : Nat) (tkn : Option BearerTokenM) (loadErr : Option String) :
    (∀ t, loadErr = none → tkn = some t →
      fetchOwnerAndBearerToken ownerID tkn loadErr = (t.issuer, some t)) ∧
    (tkn = none ∨ loadErr ≠ none →
      fetchOwnerAndBearerToken ownerID tkn loadErr = (ownerID, none)) := by
  constructor
  · intro t h1 h2
    subst h1
    subst h2
    rfl
  · intro h
    rcases h with h | h
    · subst h
      cases loadErr <;> rfl
    · cases loadErr with
      | none => exact absurd rfl h
      | some msg => cases tkn <;> rfl

/-- Witness for C8: a stored token with issuer 5 makes identity 5 the
owner and attaches the token (gateway identity 9 unused). -/
theorem claim_C8_witness :
    fetchOwnerAndBearerToken 9 (some ⟨5⟩) none = (5, some ⟨5⟩) :=
  (claim_C8 9 (some ⟨5⟩) none).1 ⟨5⟩ rfl rfl

/-! ## Claim C4 (amended) -/

theorem replaceFirst_pfx {old s : Str} (h : List.isPrefixOf old s = true) (new : Str) :
    replaceFirst s old new = new ++ s.drop old.length := by
  cases s with
  | nil => simp [replaceFirst, h]
  | cons c rest => simp [replaceFirst, h]

theorem systemTranslator_append (pre R : Str) :
    systemTranslator (pre ++ R) pre
      = ((systemAttributePfxL.map dashToUnderscore).map Char.toUpper) ++
        ((R.map dashToUnderscore).map Char.toUpper) := by
  simp only [systemTranslator,
    replaceFirst_pfx (isPrefixOf_append_self pre R) systemAttributePfxL,
    List.drop_left, List.map_append]

/-- C4 as amended: an upload header named `X-Attribute-` followed by
one of the three sub-prefix spellings actually listed in the source —
`Neofs-`, `NEOFS-`, `neofs-` — and a remainder R (with a non-empty
value) yields the object-attribute key `__NEOFS__` followed by R
upper-cased with every dash replaced by an underscore.  Other case
variants of the sub-prefix are not recognized and pass through as
plain user attributes, as the counterexample shows, so the match is
not case-insensitive. -/
theorem claim_C4 (m : AttrMap) (system R val : Str)
    (hs : system ∈ neofsAttributeHeaderPrefixes) (hval : val ≠ []) :
    filterHeadersStep m (userAttributeHeaderPfx ++ (system ++ R)) val
      = minsert m (systemAttributePfxL ++ ((R.map dashToUnderscore).map Char.toUpper)) val := by
  have h0 : ¬ ((userAttributeHeaderPfx ++ (system ++ R)).length = 0 ∨ val.length = 0) := by
    refine not_or.mpr ⟨?_, ?_⟩
    · simp [List.length_append, show userAttributeHeaderPfx.length = 12 from by decide]
    · simpa [List.length_eq_zero] using hval
  have hpfx : List.isPrefixOf userAttributeHeaderPfx (userAttributeHeaderPfx ++ (system ++ R))
      = true := isPrefixOf_append_self _ _
  have hkey : headerAttrKey (userAttributeHeaderPfx ++ (system ++ R))
      = systemAttributePfxL ++ ((R.map dashToUnderscore).map Char.toUpper) := by
    have hdrop : (userAttributeHeaderPfx ++ (system ++ R)).drop userAttributeHeaderPfx.length
        = system ++ R := List.drop_left _ _
    simp only [neofsAttributeHeaderPrefixes, List.mem_cons, List.not_mem_nil, or_false] at hs
    rcases hs with rfl | rfl | rfl
    · unfold headerAttrKey
      rw [hdrop, show neofsAttributeHeaderPrefixes.find?
            (fun system => List.isPrefixOf system ("Neofs-".toList ++ R))
            = some ("Neofs-".toList) from by
          simp [neofsAttributeHeaderPrefixes, List.find?, isPrefixOf_append_self]]
      simp only [systemTranslator_append,
        show (systemAttributePfxL.map dashToUnderscore).map Char.toUpper
            = systemAttributePfxL from by decide]
    · unfold headerAttrKey
      rw [hdrop, show neofsAttributeHeaderPrefixes.find?
            (fun system => List.isPrefixOf system ("NEOFS-".toList ++ R))
            = some ("NEOFS-".toList) from by
          simp [neofsAttributeHeaderPrefixes, List.find?, isPrefixOf_append_self,
            show "Neofs-".toList = ['N', 'e', 'o', 'f', 's', '-'] from by decide,
            show "NEOFS-".toList = ['N', 'E', 'O', 'F', 'S', '-'] from by decide,
            List.isPrefixOf]]
      simp only [systemTranslator_append,
        show (systemAttributePfxL.map dashToUnderscore).map Char.toUpper
            = systemAttributePfxL from by decide]
    · unfold headerAttrKey
      rw [hdrop, show neofsAttributeHeaderPrefixes.find?
            (fun system => List.isPrefixOf system ("neofs-".toList ++ R))
            = some ("neofs-".toList) from by
          simp [neofsAttributeHeaderPrefixes, List.find?, isPrefixOf_append_self,
            show "Neofs-".toList = ['N', 'e', 'o', 'f', 's', '-'] from by decide,
            show "NEOFS-".toList = ['N', 'E', 'O', 'F', 'S', '-'] from by decide,
            show "neofs-".toList = ['n', 'e', 'o', 'f', 's', '-'] from by decide,
            List.isPrefixOf]]
      simp only [systemTranslator_append,
        show (systemAttributePfxL.map dashToUnderscore).map Char.toUpper
            = systemAttributePfxL from by decide]
  have hlen : ¬ ((headerAttrKey (userAttributeHeaderPfx ++ (system ++ R))).length = 0) := by
    rw [hkey]
    simp [List.length_append, show systemAttributePfxL.length = 9 from by decide]
  unfold filterHeadersStep
  rw [if_neg h0, if_neg (by simp [hpfx]), if_neg hlen, hkey]

/-- Counterexample to C4 as stated: the case variant `nEofs-` of the
reserved sub-prefix is not among the three spellings the source
checks, so the header `X-Attribute-nEofs-Key` is stored under the
untranslated key `nEofs-Key` and not under `__NEOFS__KEY`. -/
theorem claim_C4_counterexample :
    filterHeaders [("X-Attribute-nEofs-Key".toList, "v".toList)] ("__NEOFS__KEY".toList)
        = none ∧
      filterHeaders [("X-Attribute-nEofs-Key".toList, "v".toList)] ("nEofs-Key".toList)
        = some ("v".toList) :=
  ⟨by decide, by decide⟩

/-- Witness for C4 (amended): `X-Attribute-Neofs-Some-Key: v` is
stored under the translated key `__NEOFS__SOME_KEY`. -/
theorem claim_C4_witness :
    filterHeadersStep (fun _ => none)
        (userAttributeHeaderPfx ++ ("Neofs-".toList ++ "Some-Key".toList)) ("v".toList)
      = minsert (fun _ => none) ("__NEOFS__SOME_KEY".toList) ("v".toList) := by
  rw [claim_C4 (fun _ => none) ("Neofs-".toList) ("Some-Key".toList) ("v".toList)
      (by decide) (by decide),
    show systemAttributePfxL ++ (("Some-Key".toList.map dashToUnderscore).map Char.toUpper)
        = "__NEOFS__SOME_KEY".toList from by decide]

/-! ## Claim C9 -/

theorem filterFold_inv (S : List (Str × Str)) :
    ∀ (hs : List (Str × Str)) (m : AttrMap),
      (∀ p ∈ hs, p ∈ S) →
      (∀ k v, m k = some v →
        k ≠ [] ∧ v ≠ [] ∧ ∃ p, p ∈ S ∧
          List.isPrefixOf userAttributeHeaderPfx p.1 = true ∧ p.2 = v) →
      ∀ k v, (hs.foldl (fun result kv => filterHeadersStep result kv.1 kv.2) m) k = some v →
        k ≠ [] ∧ v ≠ [] ∧ ∃ p, p ∈ S ∧
          List.isPrefixOf userAttributeHeaderPfx p.1 = true ∧ p.2 = v := by
  intro hs
  induction hs with
  | nil =>
    intro m _ hm k v h
    exact hm k v h
  | cons a t ih =>
    intro m hsub hm k v h
    simp only [List.foldl] at h
    refine ih (filterHeadersStep m a.1 a.2)
      (fun p hp => hsub p (List.mem_cons_of_mem a hp)) ?_ k v h
    intro k' v' hk'
    by_cases h0 : a.1.length = 0 ∨ a.2.length = 0
    · unfold filterHeadersStep at hk'
      rw [if_pos h0] at hk'
      exact hm k' v' hk'
    · by_cases hpf : List.isPrefixOf userAttributeHeaderPfx a.1 = true
      · by_cases hz : (headerAttrKey a.1).length = 0
        · unfold filterHeadersStep at hk'
          rw [if_neg h0, if_neg (by simp [hpf]), if_pos hz] at hk'
          exact hm k' v' hk'
        · unfold filterHeadersStep at hk'
          rw [if_neg h0, if_neg (by simp [hpf]), if_neg hz] at hk'
          unfold minsert at hk'
          by_cases hkk : k' = headerAttrKey a.1
          · rw [if_pos hkk] at hk'
            injection hk' with hv'
            refine ⟨?_, ?_, a, hsub a (List.mem_cons_self a t), hpf, hv'⟩
            · intro hnil
              apply hz
              rw [hkk] at hnil
              rw [hnil]
              rfl
            · intro hnil
              apply (not_or.mp h0).2
              rw [hv', hnil]
              rfl
          · rw [if_neg hkk] at hk'
            exact hm k' v' hk'
      · unfold filterHeadersStep at hk'
        rw [if_neg h0, if_pos (by simp [hpf])] at hk'
        exact hm k' v' hk'

/-- C9: every entry of the map `filterHeaders` produces has a
non-empty key and a non-empty value and corresponds to a request
header whose name starts with `X-Attribute-` (with that header's
value); a header with an empty value, or whose name is exactly
`X-Attribute-` (empty key after prefix stripping), contributes no
entry. -/
theorem claim_C9 (headerList : List (Str × Str)) :
    (∀ k v, filterHeaders headerList k = some v →
      k ≠ [] ∧ v ≠ [] ∧ ∃ p, p ∈ headerList ∧
        List.isPrefixOf userAttributeHeaderPfx p.1 = true ∧ p.2 = v) ∧
    (∀ m k, filterHeadersStep m k [] = m) ∧
    (∀ m v, filterHeadersStep m userAttributeHeaderPfx v = m) := by
  refine ⟨?_, ?_, ?_⟩
  · intro k v h
    exact filterFold_inv headerList headerList (fun _ => none) (fun p hp => hp)
      (fun k' v' h' => Option.noConfusion h') k v h
  · intro m k
    simp [filterHeadersStep]
  · intro m v
    by_cases h0 : v.length = 0
    · simp [filterHeadersStep, h0]
    · simp [filterHeadersStep, h0,
        show userAttributeHeaderPfx.length = 12 from by decide,
        show List.isPrefixOf userAttributeHeaderPfx userAttributeHeaderPfx = true from by decide,
        show (headerAttrKey userAttributeHeaderPfx).length = 0 from by decide]

/-- Witness for C9: the single header `X-Attribute-MyKey: val`
produces the entry `MyKey ↦ val`, whose key and value are non-empty
and which corresponds to that prefixed request header. -/
theorem claim_C9_witness :
    ("MyKey".toList ≠ ([] : Str)) ∧ ("val".toList ≠ ([] : Str)) ∧
      ∃ p, p ∈ [("X-Attribute-MyKey".toList, "val".toList)] ∧
        List.isPrefixOf userAttributeHeaderPfx p.1 = true ∧ p.2 = "val".toList :=
  (claim_C9 [("X-Attribute-MyKey".toList, "val".toList)]).1 ("MyKey".toList) ("val".toList)
    (by decide)

end NeoFSGate
